import Mathlib

/-!
Verification development for the installation sync engine
(`src/sync/installation.ts` and its worker wiring).

The engine is embedded shallowly: the durable Progress Store becomes an
explicit function from installation id to subscription state, queue
enqueues / metrics / the migration-complete call become effect lists in
the result records, and JavaScript errors become an explicit error value
classified exactly as the source classifies them.
-/

namespace SyncEngine

/-- The task catalog: `const tasks = {pull, branch, commit}` in declaration
order (`Object.keys` preserves string-key insertion order). -/
inductive TaskType
  | pull
  | branch
  | commit
  deriving DecidableEq

def taskTypes : List TaskType := [TaskType.pull, TaskType.branch, TaskType.commit]

/-- Per-task status strings written by the engine: `'pending' | 'complete'`. -/
inductive TaskStatus
  | pending
  | complete
  deriving DecidableEq

/-- Overall `syncStatus` values used by the engine. -/
inductive SyncStatus
  | PENDING
  | ACTIVE
  | COMPLETE
  | FAILED
  deriving DecidableEq

/-- Repository summary metadata (`getRepositorySummary`): only the id and the
numeric `updated_at` timestamp matter to the engine (ordering). -/
structure RepositorySummary where
  id : Nat
  updated_at : Int
  deriving DecidableEq

/-- One repository's progress record inside `repoSyncState.repos`.  Old
records may lack the `repository` summary; statuses and cursors start
absent (`undefined`). -/
structure RepoData where
  repository : Option RepositorySummary := none
  pullStatus : Option TaskStatus := none
  branchStatus : Option TaskStatus := none
  commitStatus : Option TaskStatus := none
  lastPullCursor : Option String := none
  lastBranchCursor : Option String := none
  lastCommitCursor : Option String := none
  deriving DecidableEq

/-- The `repoSyncState` record: the repos map is a JavaScript object keyed by numeric
repository ids; we carry its entries in enumeration order (integer-like
keys enumerate in ascending numeric order). -/
structure RepoSyncState where
  numberOfSyncedRepos : Option Nat := none
  repos : List (Nat × RepoData) := []
  deriving DecidableEq

/-- One subscription row (installation state). -/
structure Subscription where
  syncStatus : Option SyncStatus := none
  repoSyncState : RepoSyncState := {}
  deriving DecidableEq

/-- Modelled from the spec: the Progress Store (`Subscription.getSingleInstallation`
/ `save`, not in the source tree) is durable per-installation state; `load`
may return "not found" as a valid empty result (spec section 6). -/
abbrev Store := Nat → Option Subscription

/-- Modelled from the spec: persisting one installation's state back to the
Progress Store (`subscription.save()` / `subscription.update(...)`). -/
def saveSub (store : Store) (instId : Nat) (sub : Subscription) : Store :=
  fun i => if i = instId then some sub else store i

def getStatus (d : RepoData) : TaskType → Option TaskStatus
  | TaskType.pull => d.pullStatus
  | TaskType.branch => d.branchStatus
  | TaskType.commit => d.commitStatus

def getCursor (d : RepoData) : TaskType → Option String
  | TaskType.pull => d.lastPullCursor
  | TaskType.branch => d.lastBranchCursor
  | TaskType.commit => d.lastCommitCursor

def setStatus (d : RepoData) : TaskType → TaskStatus → RepoData
  | TaskType.pull, st => { d with pullStatus := some st }
  | TaskType.branch, st => { d with branchStatus := some st }
  | TaskType.commit, st => { d with commitStatus := some st }

def setCursorVal (d : RepoData) : TaskType → String → RepoData
  | TaskType.pull, c => { d with lastPullCursor := some c }
  | TaskType.branch, c => { d with lastBranchCursor := some c }
  | TaskType.commit, c => { d with lastCommitCursor := some c }

def emptyRepoData : RepoData := {}

/-- Insert a repos-map entry at its ascending-id enumeration position
(JavaScript objects enumerate integer-like keys in ascending numeric
order, so a newly added repository id lands at its numeric position). -/
def insertRepoAsc (x : Nat × RepoData) : List (Nat × RepoData) → List (Nat × RepoData)
  | [] => [x]
  | p :: ps => if x.1 < p.1 then x :: p :: ps else p :: insertRepoAsc x ps

/-- Modelled from the spec: the merge semantics of `subscription.set` /
`subscription.update` on the nested `repoSyncState.repos` object (the
Subscription model class is not in the source tree).  Per spec section 3,
a nested write of one repository's field deep-merges into the map: the
map "may grow (new repositories discovered) but entries are never removed
by the engine". -/
def updateRepoEntry (repos : List (Nat × RepoData)) (rid : Nat)
    (f : RepoData → RepoData) : List (Nat × RepoData) :=
  if repos.any (fun p => p.1 == rid) then
    repos.map (fun p => if p.1 = rid then (p.1, f p.2) else p)
  else
    insertRepoAsc (rid, f emptyRepoData) repos

def setTaskStatus (sub : Subscription) (rid : Nat) (t : TaskType) (st : TaskStatus) :
    Subscription :=
  { sub with repoSyncState := { sub.repoSyncState with
      repos := updateRepoEntry sub.repoSyncState.repos rid (fun d => setStatus d t st) } }

def setTaskCursor (sub : Subscription) (rid : Nat) (t : TaskType) (c : String) :
    Subscription :=
  { sub with repoSyncState := { sub.repoSyncState with
      repos := updateRepoEntry sub.repoSyncState.repos rid (fun d => setCursorVal d t c) } }

def setRepoSummary (sub : Subscription) (rid : Nat) (r : RepositorySummary) :
    Subscription :=
  { sub with repoSyncState := { sub.repoSyncState with
      repos := updateRepoEntry sub.repoSyncState.repos rid
        (fun d => { d with repository := some r }) } }

def setNumberOfSyncedRepos (sub : Subscription) (n : Nat) : Subscription :=
  { sub with repoSyncState := { sub.repoSyncState with numberOfSyncedRepos := some n } }

def setSyncStatus (sub : Subscription) (st : SyncStatus) : Subscription :=
  { sub with syncStatus := some st }

/-- From `updateNumberOfReposSynced`: a repository counts as synced when all three
task statuses are `'complete'`. -/
def repoFullySynced (d : RepoData) : Bool :=
  d.pullStatus == some TaskStatus.complete
    && d.branchStatus == some TaskStatus.complete
    && d.commitStatus == some TaskStatus.complete

def countSyncedRepos (repos : List (Nat × RepoData)) : Nat :=
  (repos.filter (fun p => repoFullySynced p.2)).length

/-- Sort key: `repoData.repository.updated_at` (0 stands in when the summary
is absent; the source would fault there, so the ordering theorems assume
every entry carries a summary). -/
def updatedAtKey (d : RepoData) : Int :=
  match d.repository with
  | some r => r.updated_at
  | none => 0

/-- Stable insertion step for `sortedRepos`: the element being inserted
originally precedes everything already inserted, so on an equal key it
goes first, which is exactly the stable behavior of
`Array.prototype.sort` with comparator `b.updated_at - a.updated_at`. -/
def insertByUpdated (x : Nat × RepoData) :
    List (Nat × RepoData) → List (Nat × RepoData)
  | [] => [x]
  | y :: ys =>
    if updatedAtKey y.2 ≤ updatedAtKey x.2 then x :: y :: ys
    else y :: insertByUpdated x ys

/-- The `sortedRepos` helper: stable sort of the repos entries by descending
`repository.updated_at`. -/
def sortedRepos (repos : List (Nat × RepoData)) : List (Nat × RepoData) :=
  repos.foldr insertByUpdated []

/-- The `(task, repositoryId, repository, cursor)` record returned by
`getNextTask`. -/
structure NextTask where
  task : TaskType
  repositoryId : Nat
  repository : Option RepositorySummary
  cursor : Option String
  deriving DecidableEq

/-- The scan inside `getNextTask`: over the sorted repositories, find the
first with a task type whose status is not `'complete'`, returning the
first such task type in catalog order with its stored cursor. -/
def findNextTask : List (Nat × RepoData) → Option NextTask
  | [] => none
  | (rid, d) :: rest =>
    match taskTypes.find? (fun t => getStatus d t != some TaskStatus.complete) with
    | some t =>
      some { task := t, repositoryId := rid, repository := d.repository,
             cursor := getCursor d t }
    | none => findNextTask rest

/-- The `getNextTask` operation: first persists the recomputed synced-repository count
(`updateNumberOfReposSynced` calls `subscription.update`, which writes
through to the store), then scans `sortedRepos`.  Returns the updated
store, the updated in-memory subscription, and the selected task. -/
def getNextTask (store : Store) (instId : Nat) (sub : Subscription) :
    Store × Subscription × Option NextTask :=
  let sub1 := setNumberOfSyncedRepos sub (countSyncedRepos sub.repoSyncState.repos)
  (saveSub store instId sub1, sub1, findNextTask (sortedRepos sub.repoSyncState.repos))

/-- Job payload `{installationId, jiraHost, startTime?}`; `startTime` is
carried as its parsed epoch-milliseconds value. -/
structure JobData where
  installationId : Nat
  jiraHost : String
  startTime : Option Int := none
  deriving DecidableEq

structure JobOpts where
  removeOnComplete : Option Bool := none
  removeOnFail : Option Bool := none
  deriving DecidableEq

structure Job where
  data : JobData
  opts : JobOpts
  deriving DecidableEq

/-- The option bag passed to `queues.installation.add`: absent fields stay
`none`. -/
structure EnqueueOpts where
  delay : Option Int := none
  attempts : Option Nat := none
  removeOnComplete : Option Bool := none
  removeOnFail : Option Bool := none
  deriving DecidableEq

/-- One continuation edge returned by a page fetch. -/
structure Edge where
  cursor : String
  deriving DecidableEq

/-- Models `Number(process.env.LIMITER_PER_INSTALLATION) || 1000`: `none` models an
unset or unparsable variable (NaN), and 0 is falsy, so both fall back to
1000. -/
def limiterDelay (limiter : Option Int) : Int :=
  match limiter with
  | some n => if n = 0 then 1000 else n
  | none => 1000

/-- Result of one `updateJobStatus` run: the store after the final
`subscription.save()`, the jobs added to the installation queue, whether
the migration-complete call was made, the `full_sync` histogram values
emitted, and the in-memory subscription instance held at return. -/
structure UpdateResult where
  store : Store
  enqueues : List (JobData × EnqueueOpts)
  notified : Bool
  metrics : List Int
  finalSub : Option Subscription

/-- The `updateJobStatus` operation: re-load the installation (stop silently when gone),
set the task status from `edges`, then either store the last edge's
cursor and re-enqueue with the configured delay, or recompute
`getNextTask` and re-enqueue immediately / mark COMPLETE, and finally
save.  `migrationFails` records that the migration-complete call may
reject; the source catches and logs that rejection, so it changes
nothing observable. -/
def updateJobStatus (store : Store) (job : Job) (edges : List Edge) (task : TaskType)
    (repositoryId : Nat) (limiter : Option Int) (now : Int)
    (migrationFails : Bool) : UpdateResult :=
  match store job.data.installationId with
  | none =>
    { store := store, enqueues := [], notified := false, metrics := [], finalSub := none }
  | some sub =>
    match edges.getLast? with
    | some lastEdge =>
      let sub1 := setTaskStatus sub repositoryId task TaskStatus.pending
      let sub2 := setTaskCursor sub1 repositoryId task lastEdge.cursor
      { store := saveSub store job.data.installationId sub2,
        enqueues := [(job.data,
          { delay := some (limiterDelay limiter), attempts := some 3,
            removeOnComplete := job.opts.removeOnComplete,
            removeOnFail := job.opts.removeOnFail })],
        notified := false, metrics := [], finalSub := some sub2 }
    | none =>
      let sub1 := setTaskStatus sub repositoryId task TaskStatus.complete
      match getNextTask store job.data.installationId sub1 with
      | (store1, sub2, some _) =>
        { store := saveSub store1 job.data.installationId sub2,
          enqueues := [(job.data,
            { attempts := some 3,
              removeOnComplete := job.opts.removeOnComplete,
              removeOnFail := job.opts.removeOnFail })],
          notified := false, metrics := [], finalSub := some sub2 }
      | (store1, sub2, none) =>
        let sub3 := setSyncStatus sub2 SyncStatus.COMPLETE
        { store := saveSub store1 job.data.installationId sub3,
          enqueues := [],
          notified := true,
          metrics :=
            match job.data.startTime with
            | some st => [now - st]
            | none => [],
          finalSub := some sub3 }

/-- A GitHub/HTTP error value as the catch block inspects it:
the numeric value of `err.headers['x-ratelimit-reset']` (`none` when the
conversion yields NaN), whether `String(err)` contains
`'connect ETIMEDOUT'`, whether `String(err.message)` contains the abuse
detection phrase, and the `errors[].type` list when present. -/
structure GErr where
  rateLimitReset : Option Int := none
  strIncludesTimeout : Bool := false
  messageIncludesAbuse : Bool := false
  errors : Option (List String) := none
  deriving DecidableEq

/-- Models `const delay = Math.max(Date.now() - rateLimit * 1000, 0)` followed by
`if (delay)`: `some d` exactly when the branch is taken (delay truthy),
`none` when the value is NaN or 0.  Note the source subtracts the reset
time from the current time, not the other way around. -/
def rateLimitDelay (now : Int) (reset : Option Int) : Option Int :=
  match reset with
  | none => none
  | some t =>
    let d := max (now - t * 1000) 0
    if d = 0 then none else some d

def ignoredErrorTypes : List String := ["MAX_NODE_LIMIT_EXCEEDED"]

/-- The `handleGitHubError` helper swallows the error exactly when `err.errors` is
present and every entry's type is ignorable. -/
def isIgnorableErr (e : GErr) : Bool :=
  match e.errors with
  | some l => (l.filter (fun t => !(ignoredErrorTypes.contains t))).length == 0
  | none => false

/-- Models `err.errors && err.errors.filter(error => error.type === NOT_FOUND).length`. -/
def isNotFoundErr (e : GErr) : Bool :=
  match e.errors with
  | some l => decide (0 < (l.filter (fun t => t == "NOT_FOUND")).length)
  | none => false

/-- Successful fetch payload `{edges, jiraPayload}`; the Jira payload itself
is opaque to the engine, only its presence matters here. -/
structure FetchSuccess where
  edges : List Edge
  hasJiraPayload : Bool
  deriving DecidableEq

/-- Outcome of the `execute` fallback loop. -/
inductive ExecOutcome
  | ok (r : FetchSuccess)
  | fetchErr (e : GErr)
  | exhausted
  deriving DecidableEq

def pageSizes : List Nat := [20, 10, 5, 1]

/-- The `execute` loop over one list of page sizes; the second component
records which page sizes were actually tried, in order. -/
def executeAux (f : Nat → Except GErr FetchSuccess) :
    List Nat → ExecOutcome × List Nat
  | [] => (ExecOutcome.exhausted, [])
  | p :: ps =>
    match f p with
    | Except.ok r => (ExecOutcome.ok r, [p])
    | Except.error e =>
      if isIgnorableErr e then
        let rest := executeAux f ps
        (rest.1, p :: rest.2)
      else (ExecOutcome.fetchErr e, [p])

/-- The `execute` loop: try the page fetch at sizes 20, 10, 5, 1; capacity-exceeded
errors are swallowed by `handleGitHubError` and the next size is tried;
any other error propagates; after the loop an exhausted error is thrown. -/
def execute (f : Nat → Except GErr FetchSuccess) : ExecOutcome × List Nat :=
  executeAux f pageSizes

/-- The exhausted-fallback `Error('Error processing GraphQL query: ...')`:
no headers, no `errors` array, and a message matching neither the timeout
nor the abuse check. -/
def exhaustedErr : GErr := {}

/-- Result of one `processInstallation` run; `thrown` holds the re-raised
error when the job rejects. -/
structure ProcResult where
  store : Store
  enqueues : List (JobData × EnqueueOpts)
  notified : Bool
  metrics : List Int
  thrown : Option GErr

/-- The catch block of `processInstallation`, in source order: rate-limit
delay, network timeout, abuse detection, not-found, otherwise mark FAILED
and re-raise.  `sub` is the outer in-memory subscription instance. -/
def handleTaskError (store : Store) (job : Job) (sub : Subscription) (e : GErr)
    (task : TaskType) (repositoryId : Nat) (limiter : Option Int) (now : Int)
    (migrationFails : Bool) : ProcResult :=
  match rateLimitDelay now e.rateLimitReset with
  | some d =>
    { store := store,
      enqueues := [(job.data,
        { delay := some d,
          removeOnComplete := job.opts.removeOnComplete,
          removeOnFail := job.opts.removeOnFail })],
      notified := false, metrics := [], thrown := none }
  | none =>
    if e.strIncludesTimeout then
      { store := store,
        enqueues := [(job.data,
          { delay := some 5000,
            removeOnComplete := job.opts.removeOnComplete,
            removeOnFail := job.opts.removeOnFail })],
        notified := false, metrics := [], thrown := none }
    else if e.messageIncludesAbuse then
      { store := store,
        enqueues := [(job.data,
          { delay := some 60000,
            removeOnComplete := job.opts.removeOnComplete,
            removeOnFail := job.opts.removeOnFail })],
        notified := false, metrics := [], thrown := none }
    else if isNotFoundErr e then
      let r := updateJobStatus store job [] task repositoryId limiter now migrationFails
      { store := r.store, enqueues := r.enqueues, notified := r.notified,
        metrics := r.metrics, thrown := none }
    else
      { store := saveSub store job.data.installationId (setSyncStatus sub SyncStatus.FAILED),
        enqueues := [], notified := false, metrics := [], thrown := some e }

/-- The `processInstallation` job handler: load the subscription (resolve silently when
absent), select the next task (COMPLETE and return when none), mark
ACTIVE, backfill the repository summary for old records, run the
page-size fallback, submit the Jira payload when present (a rejected
submission falls into the same catch block), update job status, and
classify any thrown error. -/
def processInstallation (store : Store) (job : Job)
    (fetcher : Nat → Except GErr FetchSuccess)
    (jiraSubmit : Except GErr Unit)
    (repoLookup : Nat → RepositorySummary)
    (limiter : Option Int) (now : Int) (migrationFails : Bool) : ProcResult :=
  match store job.data.installationId with
  | none =>
    { store := store, enqueues := [], notified := false, metrics := [], thrown := none }
  | some sub0 =>
    let gnt := getNextTask store job.data.installationId sub0
    let store1 := gnt.1
    let sub1 := gnt.2.1
    match gnt.2.2 with
    | none =>
      let sub2 := setSyncStatus sub1 SyncStatus.COMPLETE
      { store := saveSub store1 job.data.installationId sub2, enqueues := [], notified := false,
        metrics := [], thrown := none }
    | some nt =>
      let sub2 := setSyncStatus sub1 SyncStatus.ACTIVE
      let store2 := saveSub store1 job.data.installationId sub2
      let sub3 :=
        match nt.repository with
        | some _ => sub2
        | none => setRepoSummary sub2 (repoLookup nt.repositoryId).id (repoLookup nt.repositoryId)
      let store3 :=
        match nt.repository with
        | some _ => store2
        | none => saveSub store2 job.data.installationId sub3
      match execute fetcher with
      | (ExecOutcome.ok res, _) =>
        if res.hasJiraPayload then
          match jiraSubmit with
          | Except.error e =>
            handleTaskError store3 job sub3 e nt.task nt.repositoryId limiter now migrationFails
          | Except.ok _ =>
            let r := updateJobStatus store3 job res.edges nt.task nt.repositoryId limiter now migrationFails
            { store := r.store, enqueues := r.enqueues, notified := r.notified,
              metrics := r.metrics, thrown := none }
        else
          let r := updateJobStatus store3 job res.edges nt.task nt.repositoryId limiter now migrationFails
          { store := r.store, enqueues := r.enqueues, notified := r.notified,
            metrics := r.metrics, thrown := none }
      | (ExecOutcome.fetchErr e, _) =>
        handleTaskError store3 job sub3 e nt.task nt.repositoryId limiter now migrationFails
      | (ExecOutcome.exhausted, _) =>
        handleTaskError store3 job sub3 exhaustedErr nt.task nt.repositoryId limiter now migrationFails

def keysOf (l : List (Nat × RepoData)) : List Nat := l.map Prod.fst

def lookupRepo (l : List (Nat × RepoData)) (rid : Nat) : Option RepoData :=
  (l.find? (fun p => p.1 == rid)).map Prod.snd

/-- The visiting order the spec describes: strictly descending
`updated_at`, ties broken by ascending repository identifier. -/
def repoVisitOrder (a b : Nat × RepoData) : Prop :=
  updatedAtKey b.2 < updatedAtKey a.2
    ∨ (updatedAtKey a.2 = updatedAtKey b.2 ∧ a.1 < b.1)

/-- Concrete one-repository installation for concrete evaluations: repo 1
has its pull task pending, everything else complete. -/
def demoSub : Subscription :=
  ⟨some SyncStatus.ACTIVE,
    ⟨none, [(1, ⟨some ⟨1, 10⟩, some TaskStatus.pending, some TaskStatus.complete,
      some TaskStatus.complete, none, none, none⟩)]⟩⟩

def demoStore : Store := fun i => if i = 7 then some demoSub else none

def demoJob : Job := ⟨⟨7, "host", none⟩, ⟨some true, some false⟩⟩

def demoLookup : Nat → RepositorySummary := fun i => ⟨i, 0⟩

/-- Concrete installation whose only outstanding task is repo 1's commit
task. -/
def commitSub : Subscription :=
  ⟨some SyncStatus.PENDING,
    ⟨none, [(1, ⟨some ⟨1, 10⟩, some TaskStatus.complete, some TaskStatus.complete,
      some TaskStatus.pending, none, none, none⟩)]⟩⟩

def commitStore : Store := fun i => if i = 7 then some commitSub else none

/-! ### Basic store and repos-map lemmas -/

theorem saveSub_self (store : Store) (instId : Nat) (sub : Subscription) :
    saveSub store instId sub instId = some sub := by
  simp [saveSub]

theorem keysOf_map_update (l : List (Nat × RepoData)) (rid : Nat)
    (f : RepoData → RepoData) :
    keysOf (l.map (fun p => if p.1 = rid then (p.1, f p.2) else p)) = keysOf l := by
  induction l with
  | nil => rfl
  | cons p ps ih =>
    by_cases h : p.1 = rid <;> simp [keysOf, h] <;>
      simpa [keysOf] using ih

theorem mem_keysOf_insertRepoAsc {k : Nat} {x : Nat × RepoData}
    {l : List (Nat × RepoData)} (hk : k ∈ keysOf l) :
    k ∈ keysOf (insertRepoAsc x l) := by
  induction l with
  | nil => simp [keysOf] at hk
  | cons p ps ih =>
    by_cases h : x.1 < p.1
    · simp [insertRepoAsc, h, keysOf] at hk ⊢
      tauto
    · simp [insertRepoAsc, h, keysOf] at hk ⊢
      rcases hk with hk | hk
      · tauto
      · have := ih (by simpa [keysOf] using hk)
        simp [keysOf] at this
        tauto

theorem mem_keysOf_updateRepoEntry {k : Nat} (l : List (Nat × RepoData)) (rid : Nat)
    (f : RepoData → RepoData) (hk : k ∈ keysOf l) :
    k ∈ keysOf (updateRepoEntry l rid f) := by
  unfold updateRepoEntry
  split
  · rw [keysOf_map_update]; exact hk
  · exact mem_keysOf_insertRepoAsc hk

theorem lookupRepo_map_update (l : List (Nat × RepoData)) (rid : Nat)
    (f : RepoData → RepoData) :
    lookupRepo (l.map (fun p => if p.1 = rid then (p.1, f p.2) else p)) rid
      = (lookupRepo l rid).map f := by
  induction l with
  | nil => rfl
  | cons p ps ih =>
    by_cases h : p.1 = rid
    · simp [lookupRepo, List.find?_cons, h]
    · simp only [List.map_cons, lookupRepo, List.find?_cons] at ih ⊢
      rw [if_neg h]
      have hb : (p.1 == rid) = false := by simp [h]
      simp only [hb]
      exact ih

theorem lookupRepo_eq_none_of_not_any {l : List (Nat × RepoData)} {rid : Nat}
    (h : l.any (fun p => p.1 == rid) = false) :
    lookupRepo l rid = none := by
  induction l with
  | nil => rfl
  | cons p ps ih =>
    simp only [List.any_cons, Bool.or_eq_false_iff] at h
    simp [lookupRepo, List.find?_cons, h.1]
    simpa [lookupRepo] using ih h.2

theorem lookupRepo_insertRepoAsc_self {l : List (Nat × RepoData)} {rid : Nat}
    (v : RepoData) (h : l.any (fun p => p.1 == rid) = false) :
    lookupRepo (insertRepoAsc (rid, v) l) rid = some v := by
  induction l with
  | nil => simp [insertRepoAsc, lookupRepo, List.find?]
  | cons p ps ih =>
    simp only [List.any_cons, Bool.or_eq_false_iff] at h
    by_cases hlt : rid < p.1
    · simp [insertRepoAsc, hlt, lookupRepo, List.find?_cons]
    · simp only [insertRepoAsc, if_neg hlt]
      simp [lookupRepo, List.find?_cons, h.1]
      simpa [lookupRepo] using ih h.2

theorem lookupRepo_updateRepoEntry_self (l : List (Nat × RepoData)) (rid : Nat)
    (f : RepoData → RepoData) :
    lookupRepo (updateRepoEntry l rid f) rid
      = some (f ((lookupRepo l rid).getD emptyRepoData)) := by
  unfold updateRepoEntry
  split
  · next hany =>
    rw [lookupRepo_map_update]
    have hex : ∃ p ∈ l, p.1 == rid := by simpa using hany
    have hsome : (lookupRepo l rid).isSome := by
      rcases hex with ⟨p, hp, hpr⟩
      have : (l.find? (fun p => p.1 == rid)).isSome := List.find?_isSome.mpr ⟨p, hp, hpr⟩
      simpa [lookupRepo] using this
    rcases Option.isSome_iff_exists.mp hsome with ⟨d, hd⟩
    simp [hd]
  · next hany =>
    have hf : l.any (fun p => p.1 == rid) = false := by
      simp only [Bool.not_eq_true] at hany
      exact hany
    rw [lookupRepo_insertRepoAsc_self _ hf, lookupRepo_eq_none_of_not_any hf]
    rfl

/-! ### Field-level setter lemmas -/

theorem getStatus_setStatus_self (d : RepoData) (t : TaskType) (st : TaskStatus) :
    getStatus (setStatus d t st) t = some st := by
  cases t <;> rfl

theorem getStatus_setCursorVal (d : RepoData) (t t' : TaskType) (c : String) :
    getStatus (setCursorVal d t c) t' = getStatus d t' := by
  cases t <;> cases t' <;> rfl

theorem getCursor_setCursorVal_self (d : RepoData) (t : TaskType) (c : String) :
    getCursor (setCursorVal d t c) t = some c := by
  cases t <;> rfl

theorem syncStatus_setTaskStatus (sub : Subscription) (rid : Nat) (t : TaskType)
    (st : TaskStatus) : (setTaskStatus sub rid t st).syncStatus = sub.syncStatus := rfl

theorem syncStatus_setTaskCursor (sub : Subscription) (rid : Nat) (t : TaskType)
    (c : String) : (setTaskCursor sub rid t c).syncStatus = sub.syncStatus := rfl

theorem syncStatus_setNumberOfSyncedRepos (sub : Subscription) (n : Nat) :
    (setNumberOfSyncedRepos sub n).syncStatus = sub.syncStatus := rfl

theorem repos_setNumberOfSyncedRepos (sub : Subscription) (n : Nat) :
    (setNumberOfSyncedRepos sub n).repoSyncState.repos = sub.repoSyncState.repos := rfl

theorem repos_setSyncStatus (sub : Subscription) (st : SyncStatus) :
    (setSyncStatus sub st).repoSyncState.repos = sub.repoSyncState.repos := rfl

theorem repos_setTaskStatus (sub : Subscription) (rid : Nat) (t : TaskType)
    (st : TaskStatus) :
    (setTaskStatus sub rid t st).repoSyncState.repos
      = updateRepoEntry sub.repoSyncState.repos rid (fun d => setStatus d t st) := rfl

/-! ### Ordering lemmas for `sortedRepos` -/

theorem perm_insertByUpdated (x : Nat × RepoData) (l : List (Nat × RepoData)) :
    List.Perm (insertByUpdated x l) (x :: l) := by
  induction l with
  | nil => rfl
  | cons y ys ih =>
    by_cases h : updatedAtKey y.2 ≤ updatedAtKey x.2
    · simp [insertByUpdated, h]
    · simp only [insertByUpdated, if_neg h]
      exact (ih.cons y).trans (List.Perm.swap x y ys)

theorem perm_sortedRepos (l : List (Nat × RepoData)) : List.Perm (sortedRepos l) l := by
  induction l with
  | nil => rfl
  | cons x xs ih =>
    exact (perm_insertByUpdated x (sortedRepos xs)).trans (ih.cons x)

theorem mem_insertByUpdated {z x : Nat × RepoData} {l : List (Nat × RepoData)}
    (h : z ∈ insertByUpdated x l) : z = x ∨ z ∈ l := by
  have := (perm_insertByUpdated x l).mem_iff.mp h
  simpa using this

theorem pairwise_insertByUpdated {x : Nat × RepoData} {l : List (Nat × RepoData)}
    (hl : l.Pairwise repoVisitOrder) (hx : ∀ y ∈ l, x.1 < y.1) :
    (insertByUpdated x l).Pairwise repoVisitOrder := by
  induction l with
  | nil => simp [insertByUpdated, repoVisitOrder]
  | cons y ys ih =>
    rcases List.pairwise_cons.mp hl with ⟨hy, hys⟩
    by_cases h : updatedAtKey y.2 ≤ updatedAtKey x.2
    · simp only [insertByUpdated, if_pos h]
      refine List.pairwise_cons.mpr ⟨?_, hl⟩
      intro z hz
      rcases List.mem_cons.mp hz with rfl | hz
      · rcases lt_or_eq_of_le h with hlt | heq
        · exact Or.inl hlt
        · exact Or.inr ⟨heq.symm, hx z (List.mem_cons_self z ys)⟩
      · rcases hy z hz with hlt | ⟨heq, _⟩
        · exact Or.inl (lt_of_lt_of_le hlt h)
        · rcases lt_or_eq_of_le (heq ▸ h) with hlt | heq2
          · exact Or.inl hlt
          · exact Or.inr ⟨heq2.symm, hx z (List.mem_cons_of_mem y hz)⟩
    · simp only [insertByUpdated, if_neg h]
      refine List.pairwise_cons.mpr ⟨?_, ?_⟩
      · intro z hz
        rcases mem_insertByUpdated hz with rfl | hz
        · exact Or.inl (lt_of_not_le h)
        · exact hy z hz
      · exact ih hys (fun y hy => hx y (List.mem_cons_of_mem _ hy))

theorem pairwise_sortedRepos {l : List (Nat × RepoData)}
    (h : l.Pairwise (fun a b => a.1 < b.1)) :
    (sortedRepos l).Pairwise repoVisitOrder := by
  induction l with
  | nil => simp [sortedRepos]
  | cons x xs ih =>
    rcases List.pairwise_cons.mp h with ⟨hx, hxs⟩
    exact pairwise_insertByUpdated (ih hxs)
      (fun y hy => hx y ((perm_sortedRepos xs).mem_iff.mp hy))

/-! ### `findNextTask` lemmas -/

theorem findNextTask_eq_none_iff (l : List (Nat × RepoData)) :
    findNextTask l = none
      ↔ ∀ p ∈ l, ∀ t ∈ taskTypes, getStatus p.2 t = some TaskStatus.complete := by
  induction l with
  | nil => simp [findNextTask]
  | cons p ps ih =>
    obtain ⟨rid, d⟩ := p
    constructor
    · intro h
      cases hf : taskTypes.find? (fun t => getStatus d t != some TaskStatus.complete) with
      | some t => simp [findNextTask, hf] at h
      | none =>
        simp only [findNextTask, hf] at h
        intro q hq t ht
        rcases List.mem_cons.mp hq with rfl | hq
        · have := List.find?_eq_none.mp hf t ht
          simpa using this
        · exact ih.mp h q hq t ht
    · intro h
      have hd : ∀ t ∈ taskTypes, getStatus d t = some TaskStatus.complete :=
        h (rid, d) (List.mem_cons_self _ _)
      have hf : taskTypes.find? (fun t => getStatus d t != some TaskStatus.complete) = none := by
        apply List.find?_eq_none.mpr
        intro t ht
        simp [hd t ht]
      simp only [findNextTask, hf]
      exact ih.mpr (fun q hq => h q (List.mem_cons_of_mem _ hq))

theorem findNextTask_eq_some (l : List (Nat × RepoData)) (nt : NextTask)
    (h : findNextTask l = some nt) :
    ∃ pre r post, l = pre ++ r :: post
      ∧ (∀ q ∈ pre, ∀ t ∈ taskTypes, getStatus q.2 t = some TaskStatus.complete)
      ∧ (¬ ∀ t ∈ taskTypes, getStatus r.2 t = some TaskStatus.complete)
      ∧ nt.repositoryId = r.1
      ∧ nt.repository = r.2.repository
      ∧ taskTypes.find? (fun t => getStatus r.2 t != some TaskStatus.complete) = some nt.task
      ∧ nt.cursor = getCursor r.2 nt.task := by
  induction l with
  | nil => simp [findNextTask] at h
  | cons p ps ih =>
    obtain ⟨rid, d⟩ := p
    cases hf : taskTypes.find? (fun t => getStatus d t != some TaskStatus.complete) with
    | some t =>
      simp only [findNextTask, hf, Option.some.injEq] at h
      refine ⟨[], (rid, d), ps, by simp, by simp, ?_, ?_, ?_, ?_, ?_⟩
      · intro hall
        have ht := List.mem_of_find?_eq_some hf
        have hp := List.find?_some hf
        rw [hall t ht] at hp
        simp at hp
      · rw [← h]
      · rw [← h]
      · rw [← h]; exact hf
      · rw [← h]
    | none =>
      simp only [findNextTask, hf] at h
      rcases ih h with ⟨pre, r, post, hsplit, hpre, hr, h1, h2, h3, h4⟩
      refine ⟨(rid, d) :: pre, r, post, by rw [hsplit]; rfl, ?_, hr, h1, h2, h3, h4⟩
      intro q hq t ht
      rcases List.mem_cons.mp hq with rfl | hq
      · have := List.find?_eq_none.mp hf t ht
        simpa using this
      · exact hpre q hq t ht

/-! ### `execute` fallback lemmas -/

theorem executeAux_all_ignorable (f : Nat → Except GErr FetchSuccess)
    (sizes : List Nat)
    (h : ∀ p ∈ sizes, ∃ e, f p = Except.error e ∧ isIgnorableErr e = true) :
    executeAux f sizes = (ExecOutcome.exhausted, sizes) := by
  induction sizes with
  | nil => rfl
  | cons p ps ih =>
    rcases h p (List.mem_cons_self _ _) with ⟨e, hf, hig⟩
    have ihr := ih (fun q hq => h q (List.mem_cons_of_mem _ hq))
    simp [executeAux, hf, hig, ihr]

theorem executeAux_prefix_then_ok (f : Nat → Except GErr FetchSuccess)
    (pre : List Nat) (p : Nat) (rest : List Nat) (r : FetchSuccess)
    (hpre : ∀ q ∈ pre, ∃ e, f q = Except.error e ∧ isIgnorableErr e = true)
    (hp : f p = Except.ok r) :
    executeAux f (pre ++ p :: rest) = (ExecOutcome.ok r, pre ++ [p]) := by
  induction pre with
  | nil => simp [executeAux, hp]
  | cons q qs ih =>
    rcases hpre q (List.mem_cons_self _ _) with ⟨e, hf, hig⟩
    have ihr := ih (fun q' hq' => hpre q' (List.mem_cons_of_mem _ hq'))
    simp [executeAux, hf, hig, ihr]

theorem executeAux_prefix_then_fatal (f : Nat → Except GErr FetchSuccess)
    (pre : List Nat) (p : Nat) (rest : List Nat) (e : GErr)
    (hpre : ∀ q ∈ pre, ∃ e', f q = Except.error e' ∧ isIgnorableErr e' = true)
    (hp : f p = Except.error e) (hbad : isIgnorableErr e = false) :
    executeAux f (pre ++ p :: rest) = (ExecOutcome.fetchErr e, pre ++ [p]) := by
  induction pre with
  | nil => simp [executeAux, hp, hbad]
  | cons q qs ih =>
    rcases hpre q (List.mem_cons_self _ _) with ⟨e', hf, hig⟩
    have ihr := ih (fun q' hq' => hpre q' (List.mem_cons_of_mem _ hq'))
    simp [executeAux, hf, hig, ihr]

/-! ### `updateJobStatus` characterization helpers -/

theorem updateJobStatus_nil_spec (store : Store) (job : Job) (task : TaskType)
    (rid : Nat) (limiter : Option Int) (now : Int) (mf : Bool) {sub : Subscription}
    (h : store job.data.installationId = some sub) :
    ∃ subf,
      (updateJobStatus store job [] task rid limiter now mf).store job.data.installationId
        = some subf
      ∧ (updateJobStatus store job [] task rid limiter now mf).finalSub = some subf
      ∧ lookupRepo subf.repoSyncState.repos rid
          = some (setStatus ((lookupRepo sub.repoSyncState.repos rid).getD emptyRepoData)
              task TaskStatus.complete)
      ∧ (subf.syncStatus = sub.syncStatus ∨ subf.syncStatus = some SyncStatus.COMPLETE)
      ∧ subf.repoSyncState.repos
          = updateRepoEntry sub.repoSyncState.repos rid
              (fun d => setStatus d task TaskStatus.complete) := by
  unfold updateJobStatus
  rw [h]
  simp only [List.getLast?_nil, getNextTask]
  cases hn : findNextTask (sortedRepos
      (setTaskStatus sub rid task TaskStatus.complete).repoSyncState.repos) with
  | some nt =>
    refine ⟨_, by simp [saveSub], rfl, ?_, Or.inl rfl, rfl⟩
    simp only [repos_setNumberOfSyncedRepos, repos_setTaskStatus]
    rw [lookupRepo_updateRepoEntry_self]
  | none =>
    refine ⟨_, by simp [saveSub], rfl, ?_, Or.inr rfl, rfl⟩
    simp only [repos_setSyncStatus, repos_setNumberOfSyncedRepos, repos_setTaskStatus]
    rw [lookupRepo_updateRepoEntry_self]

theorem updateJobStatus_cons_spec (store : Store) (job : Job) (task : TaskType)
    (rid : Nat) (limiter : Option Int) (now : Int) (mf : Bool) {sub : Subscription}
    (e : Edge) (es : List Edge)
    (h : store job.data.installationId = some sub) :
    ∃ le, (e :: es).getLast? = some le
      ∧ (updateJobStatus store job (e :: es) task rid limiter now mf).store
          job.data.installationId
        = some (setTaskCursor (setTaskStatus sub rid task TaskStatus.pending) rid task le.cursor)
      ∧ (updateJobStatus store job (e :: es) task rid limiter now mf).finalSub
        = some (setTaskCursor (setTaskStatus sub rid task TaskStatus.pending) rid task le.cursor)
      ∧ (updateJobStatus store job (e :: es) task rid limiter now mf).enqueues
        = [(job.data,
            { delay := some (limiterDelay limiter), attempts := some 3,
              removeOnComplete := job.opts.removeOnComplete,
              removeOnFail := job.opts.removeOnFail })]
      ∧ (updateJobStatus store job (e :: es) task rid limiter now mf).notified = false
      ∧ (updateJobStatus store job (e :: es) task rid limiter now mf).metrics = [] := by
  have hsome : ((e :: es).getLast?).isSome := by
    rw [List.getLast?_isSome]
    simp
  rcases Option.isSome_iff_exists.mp hsome with ⟨le, hle⟩
  refine ⟨le, hle, ?_, ?_, ?_, ?_, ?_⟩ <;>
    (unfold updateJobStatus; rw [h, hle]; try simp [saveSub])

/-- C9: `updateJobStatus` first re-loads the installation's progress; when it
no longer exists the function returns silently with no enqueue, no
migration call, no metric and no store mutation; otherwise, on every
path, the in-memory subscription instance held at return is exactly what
is persisted for that installation — no unpersisted partial mutation
leaks past the function. -/
theorem C9_reload_then_persist (store : Store) (job : Job) (edges : List Edge)
    (task : TaskType) (rid : Nat) (limiter : Option Int) (now : Int) (mf : Bool) :
    (store job.data.installationId = none →
      (updateJobStatus store job edges task rid limiter now mf).store = store
      ∧ (updateJobStatus store job edges task rid limiter now mf).enqueues = []
      ∧ (updateJobStatus store job edges task rid limiter now mf).notified = false
      ∧ (updateJobStatus store job edges task rid limiter now mf).metrics = []
      ∧ (updateJobStatus store job edges task rid limiter now mf).finalSub = none)
    ∧ (∀ sub, store job.data.installationId = some sub →
      ∃ m, (updateJobStatus store job edges task rid limiter now mf).finalSub = some m
        ∧ (updateJobStatus store job edges task rid limiter now mf).store
            job.data.installationId = some m) := by
  constructor
  · intro h
    unfold updateJobStatus
    rw [h]
    exact ⟨rfl, rfl, rfl, rfl, rfl⟩
  · intro sub h
    cases edges with
    | nil =>
      obtain ⟨m, hst, hfin, _, _, _⟩ :=
        updateJobStatus_nil_spec store job task rid limiter now mf h
      exact ⟨m, hfin, hst⟩
    | cons e es =>
      obtain ⟨le, _, hst, hfin, _, _, _⟩ :=
        updateJobStatus_cons_spec store job task rid limiter now mf e es h
      exact ⟨_, hfin, hst⟩

/-- C9 witness: a concrete two-point store exercising both the
missing-installation path and the persisted path. -/
theorem C9_reload_then_persist_witness :
    ((fun _ => none : Store) 5 = none →
      (updateJobStatus (fun _ => none) ⟨⟨5, "host", none⟩, ⟨none, none⟩⟩ [] TaskType.pull 1
          none 0 false).store = (fun _ => none)
      ∧ (updateJobStatus (fun _ => none) ⟨⟨5, "host", none⟩, ⟨none, none⟩⟩ [] TaskType.pull 1
          none 0 false).enqueues = []
      ∧ (updateJobStatus (fun _ => none) ⟨⟨5, "host", none⟩, ⟨none, none⟩⟩ [] TaskType.pull 1
          none 0 false).notified = false
      ∧ (updateJobStatus (fun _ => none) ⟨⟨5, "host", none⟩, ⟨none, none⟩⟩ [] TaskType.pull 1
          none 0 false).metrics = []
      ∧ (updateJobStatus (fun _ => none) ⟨⟨5, "host", none⟩, ⟨none, none⟩⟩ [] TaskType.pull 1
          none 0 false).finalSub = none) := by
  exact (C9_reload_then_persist (fun _ => none) ⟨⟨5, "host", none⟩, ⟨none, none⟩⟩ []
    TaskType.pull 1 none 0 false).1

/-- C6: with the installation present, `updateJobStatus` stores task status
PENDING exactly when `edges` is non-empty and COMPLETE otherwise; when
non-empty it stores the last edge's continuation token as the cursor and
re-enqueues one job with the configurable inter-job delay (default 1000),
3 attempts, inheriting the triggering job's removal options. -/
theorem C6_status_cursor_reenqueue (store : Store) (job : Job) (edges : List Edge)
    (task : TaskType) (rid : Nat) (limiter : Option Int) (now : Int) (mf : Bool)
    (sub : Subscription) (h : store job.data.installationId = some sub) :
    (∃ subf d,
      (updateJobStatus store job edges task rid limiter now mf).store
          job.data.installationId = some subf
      ∧ lookupRepo subf.repoSyncState.repos rid = some d
      ∧ getStatus d task
          = some (if edges = [] then TaskStatus.complete else TaskStatus.pending)
      ∧ (∀ le, edges.getLast? = some le → getCursor d task = some le.cursor))
    ∧ (edges ≠ [] →
        (updateJobStatus store job edges task rid limiter now mf).enqueues
          = [(job.data,
              { delay := some (limiterDelay limiter), attempts := some 3,
                removeOnComplete := job.opts.removeOnComplete,
                removeOnFail := job.opts.removeOnFail })])
    ∧ limiterDelay none = 1000 := by
  refine ⟨?_, ?_, rfl⟩
  · cases edges with
    | nil =>
      obtain ⟨subf, hst, _, hlook, _, _⟩ :=
        updateJobStatus_nil_spec store job task rid limiter now mf h
      refine ⟨subf, _, hst, hlook, ?_, ?_⟩
      · simp [getStatus_setStatus_self]
      · intro le hle
        simp at hle
    | cons e es =>
      obtain ⟨le, hle, hst, _, _, _, _⟩ :=
        updateJobStatus_cons_spec store job task rid limiter now mf e es h
      refine ⟨_,
        setCursorVal
          (setStatus ((lookupRepo sub.repoSyncState.repos rid).getD emptyRepoData)
            task TaskStatus.pending) task le.cursor,
        hst, ?_, ?_, ?_⟩
      · simp only [setTaskCursor, setTaskStatus]
        rw [lookupRepo_updateRepoEntry_self, lookupRepo_updateRepoEntry_self]
        simp
      · simp [getStatus_setCursorVal, getStatus_setStatus_self]
      · intro le' hle'
        rw [hle] at hle'
        cases hle'
        exact getCursor_setCursorVal_self _ _ _
  · intro hne
    cases edges with
    | nil => exact absurd rfl hne
    | cons e es =>
      obtain ⟨le, _, _, _, henq, _, _⟩ :=
        updateJobStatus_cons_spec store job task rid limiter now mf e es h
      exact henq

/-- C6 witness: one-repo store, one edge fetched, default limiter. -/
theorem C6_status_cursor_reenqueue_witness :
    (∃ subf d,
      (updateJobStatus
          (fun i => if i = 5 then some ⟨some SyncStatus.ACTIVE, ⟨none, [(1, {})]⟩⟩ else none)
          ⟨⟨5, "host", none⟩, ⟨some true, some false⟩⟩ [⟨"cur1"⟩] TaskType.pull 1 none 0
          false).store 5 = some subf
      ∧ lookupRepo subf.repoSyncState.repos 1 = some d
      ∧ getStatus d TaskType.pull
          = some (if ([⟨"cur1"⟩] : List Edge) = [] then TaskStatus.complete
              else TaskStatus.pending)
      ∧ (∀ le, ([⟨"cur1"⟩] : List Edge).getLast? = some le →
          getCursor d TaskType.pull = some le.cursor))
    ∧ (([⟨"cur1"⟩] : List Edge) ≠ [] →
        (updateJobStatus
            (fun i => if i = 5 then some ⟨some SyncStatus.ACTIVE, ⟨none, [(1, {})]⟩⟩ else none)
            ⟨⟨5, "host", none⟩, ⟨some true, some false⟩⟩ [⟨"cur1"⟩] TaskType.pull 1 none 0
            false).enqueues
          = [(⟨5, "host", none⟩,
              { delay := some (limiterDelay none), attempts := some 3,
                removeOnComplete := some true, removeOnFail := some false })])
    ∧ limiterDelay none = 1000 := by
  exact C6_status_cursor_reenqueue
    (fun i => if i = 5 then some ⟨some SyncStatus.ACTIVE, ⟨none, [(1, {})]⟩⟩ else none)
    ⟨⟨5, "host", none⟩, ⟨some true, some false⟩⟩ [⟨"cur1"⟩] TaskType.pull 1 none 0 false
    ⟨some SyncStatus.ACTIVE, ⟨none, [(1, {})]⟩⟩ (by simp)

/-- C10: applying `updateJobStatus` twice with the same empty-edges result
for a task that is already complete leaves that task's status complete
after each application, and when the overall syncStatus was COMPLETE it
stays COMPLETE (never regressing to ACTIVE). -/
theorem C10_idempotent_on_complete (store : Store) (job : Job) (task : TaskType)
    (rid : Nat) (limiter : Option Int) (now : Int) (mf : Bool)
    (sub : Subscription) (d : RepoData)
    (h : store job.data.installationId = some sub)
    (hd : lookupRepo sub.repoSyncState.repos rid = some d)
    (hc : getStatus d task = some TaskStatus.complete) :
    ∃ sub1 sub2,
      (updateJobStatus store job [] task rid limiter now mf).store
          job.data.installationId = some sub1
      ∧ (updateJobStatus (updateJobStatus store job [] task rid limiter now mf).store
          job [] task rid limiter now mf).store job.data.installationId = some sub2
      ∧ (∃ d1, lookupRepo sub1.repoSyncState.repos rid = some d1
          ∧ getStatus d1 task = some TaskStatus.complete)
      ∧ (∃ d2, lookupRepo sub2.repoSyncState.repos rid = some d2
          ∧ getStatus d2 task = some TaskStatus.complete)
      ∧ (sub.syncStatus = some SyncStatus.COMPLETE →
          sub1.syncStatus = some SyncStatus.COMPLETE
          ∧ sub2.syncStatus = some SyncStatus.COMPLETE) := by
  obtain ⟨sub1, hst1, _, hlook1, hsync1, _⟩ :=
    updateJobStatus_nil_spec store job task rid limiter now mf h
  obtain ⟨sub2, hst2, _, hlook2, hsync2, _⟩ :=
    updateJobStatus_nil_spec
      ((updateJobStatus store job [] task rid limiter now mf).store)
      job task rid limiter now mf hst1
  refine ⟨sub1, sub2, hst1, hst2, ?_, ?_, ?_⟩
  · exact ⟨_, hlook1, by rw [hd]; exact getStatus_setStatus_self _ _ _⟩
  · exact ⟨_, hlook2, getStatus_setStatus_self _ _ _⟩
  · intro hcomp
    have h1 : sub1.syncStatus = some SyncStatus.COMPLETE := by
      rcases hsync1 with h1 | h1
      · rw [h1, hcomp]
      · exact h1
    have h2 : sub2.syncStatus = some SyncStatus.COMPLETE := by
      rcases hsync2 with h2 | h2
      · rw [h2, h1]
      · exact h2
    exact ⟨h1, h2⟩

/-- C10 witness: one repository with every task complete, overall status
COMPLETE, applied twice. -/
theorem C10_idempotent_on_complete_witness :
    ∃ sub1 sub2,
      (updateJobStatus
          (fun i => if i = 5 then
              some ⟨some SyncStatus.COMPLETE,
                ⟨some 1, [(1, ⟨some ⟨1, 10⟩, some TaskStatus.complete, some TaskStatus.complete,
                  some TaskStatus.complete, none, none, none⟩)]⟩⟩
            else none)
          ⟨⟨5, "host", none⟩, ⟨none, none⟩⟩ [] TaskType.pull 1 none 0 false).store 5
        = some sub1
      ∧ (updateJobStatus
          (updateJobStatus
            (fun i => if i = 5 then
                some ⟨some SyncStatus.COMPLETE,
                  ⟨some 1, [(1, ⟨some ⟨1, 10⟩, some TaskStatus.complete, some TaskStatus.complete,
                    some TaskStatus.complete, none, none, none⟩)]⟩⟩
              else none)
            ⟨⟨5, "host", none⟩, ⟨none, none⟩⟩ [] TaskType.pull 1 none 0 false).store
          ⟨⟨5, "host", none⟩, ⟨none, none⟩⟩ [] TaskType.pull 1 none 0 false).store 5
        = some sub2
      ∧ (∃ d1, lookupRepo sub1.repoSyncState.repos 1 = some d1
          ∧ getStatus d1 TaskType.pull = some TaskStatus.complete)
      ∧ (∃ d2, lookupRepo sub2.repoSyncState.repos 1 = some d2
          ∧ getStatus d2 TaskType.pull = some TaskStatus.complete)
      ∧ ((⟨some SyncStatus.COMPLETE,
            ⟨some 1, [(1, ⟨some ⟨1, 10⟩, some TaskStatus.complete, some TaskStatus.complete,
              some TaskStatus.complete, none, none, none⟩)]⟩⟩ : Subscription).syncStatus
            = some SyncStatus.COMPLETE →
          sub1.syncStatus = some SyncStatus.COMPLETE
          ∧ sub2.syncStatus = some SyncStatus.COMPLETE) := by
  exact C10_idempotent_on_complete
    (fun i => if i = 5 then
        some ⟨some SyncStatus.COMPLETE,
          ⟨some 1, [(1, ⟨some ⟨1, 10⟩, some TaskStatus.complete, some TaskStatus.complete,
            some TaskStatus.complete, none, none, none⟩)]⟩⟩
      else none)
    ⟨⟨5, "host", none⟩, ⟨none, none⟩⟩ TaskType.pull 1 none 0 false
    ⟨some SyncStatus.COMPLETE,
      ⟨some 1, [(1, ⟨some ⟨1, 10⟩, some TaskStatus.complete, some TaskStatus.complete,
        some TaskStatus.complete, none, none, none⟩)]⟩⟩
    ⟨some ⟨1, 10⟩, some TaskStatus.complete, some TaskStatus.complete,
      some TaskStatus.complete, none, none, none⟩
    (by simp) (by decide) (by decide)

/-- C5: the repos map never shrinks under the engine's writes: the
deep-merge primitive only rewrites or inserts the addressed entry, the
synced-repository-count update inside `getNextTask` leaves the map
untouched, and every `updateJobStatus` path persists a state whose map
keys include all previous keys. -/
theorem C5_repos_never_shrink :
    (∀ (repos : List (Nat × RepoData)) (rid : Nat) (f : RepoData → RepoData) (k : Nat),
      k ∈ keysOf repos → k ∈ keysOf (updateRepoEntry repos rid f))
    ∧ (∀ (store : Store) (instId : Nat) (sub : Subscription) (k : Nat),
      k ∈ keysOf sub.repoSyncState.repos →
      ∃ sub', (getNextTask store instId sub).1 instId = some sub'
        ∧ k ∈ keysOf sub'.repoSyncState.repos)
    ∧ (∀ (store : Store) (job : Job) (edges : List Edge) (task : TaskType) (rid : Nat)
        (limiter : Option Int) (now : Int) (mf : Bool) (sub : Subscription) (k : Nat),
      store job.data.installationId = some sub →
      k ∈ keysOf sub.repoSyncState.repos →
      ∃ sub', (updateJobStatus store job edges task rid limiter now mf).store
          job.data.installationId = some sub'
        ∧ k ∈ keysOf sub'.repoSyncState.repos) := by
  refine ⟨?_, ?_, ?_⟩
  · intro repos rid f k hk
    exact mem_keysOf_updateRepoEntry repos rid f hk
  · intro store instId sub k hk
    exact ⟨_, saveSub_self _ _ _, hk⟩
  · intro store job edges task rid limiter now mf sub k h hk
    cases edges with
    | nil =>
      obtain ⟨subf, hst, _, _, _, hrepos⟩ :=
        updateJobStatus_nil_spec store job task rid limiter now mf h
      refine ⟨subf, hst, ?_⟩
      rw [hrepos]
      exact mem_keysOf_updateRepoEntry _ _ _ hk
    | cons e es =>
      obtain ⟨le, _, hst, _, _, _, _⟩ :=
        updateJobStatus_cons_spec store job task rid limiter now mf e es h
      refine ⟨_, hst, ?_⟩
      simp only [setTaskCursor, setTaskStatus]
      exact mem_keysOf_updateRepoEntry _ _ _ (mem_keysOf_updateRepoEntry _ _ _ hk)

/-- C5 witness: a one-repo store, exercised through the updateJobStatus
clause with a non-empty page. -/
theorem C5_repos_never_shrink_witness :
    ∃ sub', (updateJobStatus
        (fun i => if i = 5 then some ⟨some SyncStatus.ACTIVE, ⟨none, [(1, {})]⟩⟩ else none)
        ⟨⟨5, "host", none⟩, ⟨none, none⟩⟩ [⟨"c"⟩] TaskType.branch 1 none 0 false).store 5
      = some sub'
      ∧ 1 ∈ keysOf sub'.repoSyncState.repos := by
  exact C5_repos_never_shrink.2.2
    (fun i => if i = 5 then some ⟨some SyncStatus.ACTIVE, ⟨none, [(1, {})]⟩⟩ else none)
    ⟨⟨5, "host", none⟩, ⟨none, none⟩⟩ [⟨"c"⟩] TaskType.branch 1 none 0 false
    ⟨some SyncStatus.ACTIVE, ⟨none, [(1, {})]⟩⟩ 1 (by simp) (by decide)

/-- C4 (amended): when `updateJobStatus` runs with empty edges and the
installation still exists: if `getNextTask` finds another outstanding
task, a new job is re-enqueued immediately (no delay) with a 3-attempt
budget while `updateJobStatus` itself leaves `syncStatus` unchanged
(ACTIVE is written earlier, by `processInstallation`); if no task
remains, `syncStatus` is set COMPLETE, the migration-complete call is
made, the `full_sync` duration metric is emitted exactly when the job
carried a `startTime`, and a failing migration-complete call changes
nothing (it is caught and logged). -/
theorem C4_after_completion_reschedule (store : Store) (job : Job) (task : TaskType)
    (rid : Nat) (limiter : Option Int) (now : Int)
    (sub : Subscription) (h : store job.data.installationId = some sub) :
    (∀ nt, findNextTask (sortedRepos
        (setTaskStatus sub rid task TaskStatus.complete).repoSyncState.repos) = some nt →
      (updateJobStatus store job [] task rid limiter now false).enqueues
        = [(job.data,
            { attempts := some 3,
              removeOnComplete := job.opts.removeOnComplete,
              removeOnFail := job.opts.removeOnFail })]
      ∧ (updateJobStatus store job [] task rid limiter now false).notified = false
      ∧ (updateJobStatus store job [] task rid limiter now false).metrics = []
      ∧ ∃ subf, (updateJobStatus store job [] task rid limiter now false).store
            job.data.installationId = some subf ∧ subf.syncStatus = sub.syncStatus)
    ∧ (findNextTask (sortedRepos
        (setTaskStatus sub rid task TaskStatus.complete).repoSyncState.repos) = none →
      (∃ subf, (updateJobStatus store job [] task rid limiter now false).store
            job.data.installationId = some subf
          ∧ subf.syncStatus = some SyncStatus.COMPLETE)
      ∧ (updateJobStatus store job [] task rid limiter now false).enqueues = []
      ∧ (updateJobStatus store job [] task rid limiter now false).notified = true
      ∧ (updateJobStatus store job [] task rid limiter now false).metrics
          = (match job.data.startTime with
             | some st => [now - st]
             | none => []))
    ∧ (∀ mf : Bool, updateJobStatus store job [] task rid limiter now mf
        = updateJobStatus store job [] task rid limiter now false) := by
  refine ⟨?_, ?_, fun _ => rfl⟩
  · intro nt hnt
    unfold updateJobStatus
    rw [h]
    simp only [List.getLast?_nil, getNextTask]
    rw [hnt]
    exact ⟨rfl, rfl, rfl, _, saveSub_self _ _ _, rfl⟩
  · intro hnone
    unfold updateJobStatus
    rw [h]
    simp only [List.getLast?_nil, getNextTask]
    rw [hnone]
    exact ⟨⟨_, saveSub_self _ _ _, rfl⟩, rfl, rfl, rfl⟩

/-- C4 counterexample: with stored `syncStatus = PENDING`, empty edges for
repo 1's pull task and repo 2's pull task still outstanding, the code
re-enqueues immediately but the persisted `syncStatus` is still PENDING —
`updateJobStatus` does not set it to ACTIVE as the claim states. -/
theorem C4_counterexample :
    ((updateJobStatus
        (fun i => if i = 7 then
            some ⟨some SyncStatus.PENDING,
              ⟨none,
                [(1, ⟨some ⟨1, 10⟩, some TaskStatus.pending, some TaskStatus.complete,
                  some TaskStatus.complete, none, none, none⟩),
                 (2, ⟨some ⟨2, 5⟩, some TaskStatus.pending, some TaskStatus.complete,
                  some TaskStatus.complete, none, none, none⟩)]⟩⟩
          else none)
        ⟨⟨7, "host", none⟩, ⟨none, none⟩⟩ [] TaskType.pull 1 none 0 false).store 7).map
      Subscription.syncStatus = some (some SyncStatus.PENDING)
    ∧ (updateJobStatus
        (fun i => if i = 7 then
            some ⟨some SyncStatus.PENDING,
              ⟨none,
                [(1, ⟨some ⟨1, 10⟩, some TaskStatus.pending, some TaskStatus.complete,
                  some TaskStatus.complete, none, none, none⟩),
                 (2, ⟨some ⟨2, 5⟩, some TaskStatus.pending, some TaskStatus.complete,
                  some TaskStatus.complete, none, none, none⟩)]⟩⟩
          else none)
        ⟨⟨7, "host", none⟩, ⟨none, none⟩⟩ [] TaskType.pull 1 none 0 false).enqueues ≠ [] := by
  decide

/-- C4 witness: the amended theorem applied at the counterexample's store
(another task outstanding) and at a fully-complete store. -/
theorem C4_after_completion_reschedule_witness :
    (updateJobStatus
        (fun i => if i = 9 then
            some ⟨some SyncStatus.ACTIVE,
              ⟨none, [(1, ⟨some ⟨1, 10⟩, some TaskStatus.pending, some TaskStatus.complete,
                some TaskStatus.complete, none, none, none⟩)]⟩⟩
          else none)
        ⟨⟨9, "host", some 40⟩, ⟨none, none⟩⟩ [] TaskType.pull 1 none 100 false).notified = true
    ∧ (updateJobStatus
        (fun i => if i = 9 then
            some ⟨some SyncStatus.ACTIVE,
              ⟨none, [(1, ⟨some ⟨1, 10⟩, some TaskStatus.pending, some TaskStatus.complete,
                some TaskStatus.complete, none, none, none⟩)]⟩⟩
          else none)
        ⟨⟨9, "host", some 40⟩, ⟨none, none⟩⟩ [] TaskType.pull 1 none 100 false).metrics
      = [(100 : Int) - 40] := by
  have hc := (C4_after_completion_reschedule
    (fun i => if i = 9 then
        some ⟨some SyncStatus.ACTIVE,
          ⟨none, [(1, ⟨some ⟨1, 10⟩, some TaskStatus.pending, some TaskStatus.complete,
            some TaskStatus.complete, none, none, none⟩)]⟩⟩
      else none)
    ⟨⟨9, "host", some 40⟩, ⟨none, none⟩⟩ TaskType.pull 1 none 100
    ⟨some SyncStatus.ACTIVE,
      ⟨none, [(1, ⟨some ⟨1, 10⟩, some TaskStatus.pending, some TaskStatus.complete,
        some TaskStatus.complete, none, none, none⟩)]⟩⟩ (by simp)).2.1 (by decide)
  exact ⟨hc.2.2.1, hc.2.2.2⟩

/-- C3: `getNextTask` is a pure function of the progress state (determinism
is by construction of the embedding).  Repositories are visited in
descending `updated_at` order with a stable tie-break by ascending
repository identifier (the enumeration order of the integer-keyed map);
the selection returns, for the first repository in that order with an
incomplete task type, the first incomplete task type in catalog order
together with that task's stored cursor; and it returns no task exactly
when every repository has every task type complete. -/
theorem C3_next_task_selection (store : Store) (instId : Nat) (sub : Subscription)
    (hasc : sub.repoSyncState.repos.Pairwise (fun a b => a.1 < b.1))
    (hsum : ∀ p ∈ sub.repoSyncState.repos, (p.2.repository).isSome = true) :
    List.Perm (sortedRepos sub.repoSyncState.repos) sub.repoSyncState.repos
    ∧ (sortedRepos sub.repoSyncState.repos).Pairwise repoVisitOrder
    ∧ ((getNextTask store instId sub).2.2 = none ↔
        ∀ p ∈ sub.repoSyncState.repos, ∀ t ∈ taskTypes,
          getStatus p.2 t = some TaskStatus.complete)
    ∧ (∀ nt, (getNextTask store instId sub).2.2 = some nt →
        ∃ pre r post, sortedRepos sub.repoSyncState.repos = pre ++ r :: post
          ∧ (∀ q ∈ pre, ∀ t ∈ taskTypes, getStatus q.2 t = some TaskStatus.complete)
          ∧ (¬ ∀ t ∈ taskTypes, getStatus r.2 t = some TaskStatus.complete)
          ∧ nt.repositoryId = r.1
          ∧ nt.repository = r.2.repository
          ∧ taskTypes.find? (fun t => getStatus r.2 t != some TaskStatus.complete)
              = some nt.task
          ∧ nt.cursor = getCursor r.2 nt.task) := by
  refine ⟨perm_sortedRepos _, pairwise_sortedRepos hasc, ?_, ?_⟩
  · rw [show (getNextTask store instId sub).2.2
        = findNextTask (sortedRepos sub.repoSyncState.repos) from rfl]
    rw [findNextTask_eq_none_iff]
    constructor
    · intro hall p hp t ht
      exact hall p ((perm_sortedRepos _).mem_iff.mpr hp) t ht
    · intro hall p hp t ht
      exact hall p ((perm_sortedRepos _).mem_iff.mp hp) t ht
  · intro nt hnt
    exact findNextTask_eq_some _ nt hnt

/-- C3 witness: two repositories; id 2 is more recently updated and has an
incomplete branch task, so it is selected with its stored cursor. -/
theorem C3_next_task_selection_witness :
    (sortedRepos
        ([(1, ⟨some ⟨1, 5⟩, some TaskStatus.complete, some TaskStatus.complete,
            some TaskStatus.complete, none, none, none⟩),
          (2, ⟨some ⟨2, 9⟩, some TaskStatus.complete, none,
            some TaskStatus.complete, none, some ("bcur"), none⟩)] :
          List (Nat × RepoData))).Pairwise repoVisitOrder
    ∧ ((getNextTask (fun _ => none) 5
          ⟨some SyncStatus.ACTIVE,
            ⟨none,
              [(1, ⟨some ⟨1, 5⟩, some TaskStatus.complete, some TaskStatus.complete,
                some TaskStatus.complete, none, none, none⟩),
               (2, ⟨some ⟨2, 9⟩, some TaskStatus.complete, none,
                some TaskStatus.complete, none, some ("bcur"), none⟩)]⟩⟩).2.2 = none ↔
        ∀ p ∈ ([(1, ⟨some ⟨1, 5⟩, some TaskStatus.complete, some TaskStatus.complete,
            some TaskStatus.complete, none, none, none⟩),
          (2, ⟨some ⟨2, 9⟩, some TaskStatus.complete, none,
            some TaskStatus.complete, none, some ("bcur"), none⟩)] :
          List (Nat × RepoData)), ∀ t ∈ taskTypes,
          getStatus p.2 t = some TaskStatus.complete) := by
  have hthm := C3_next_task_selection (fun _ => none) 5
    ⟨some SyncStatus.ACTIVE,
      ⟨none,
        [(1, ⟨some ⟨1, 5⟩, some TaskStatus.complete, some TaskStatus.complete,
          some TaskStatus.complete, none, none, none⟩),
         (2, ⟨some ⟨2, 9⟩, some TaskStatus.complete, none,
          some TaskStatus.complete, none, some ("bcur"), none⟩)]⟩⟩
    (by decide) (by decide)
  exact ⟨hthm.2.1, hthm.2.2.1⟩

/-- C2: the page-size fallback tries the fetcher at 20, 10, 5, 1 in order:
capacity-exceeded failures at 20 and 10 followed by success at 5 yield
exactly three calls in that order returning the size-5 result; when every
size fails capacity-exceeded the execution ends exhausted after trying
all four sizes; and a non-ignorable error after any capacity-exceeded
prefix propagates immediately, aborting the loop. -/
theorem C2_page_size_fallback :
    (∀ (f : Nat → Except GErr FetchSuccess) (e20 e10 : GErr) (r5 : FetchSuccess),
      f 20 = Except.error e20 → isIgnorableErr e20 = true →
      f 10 = Except.error e10 → isIgnorableErr e10 = true →
      f 5 = Except.ok r5 →
      execute f = (ExecOutcome.ok r5, [20, 10, 5]))
    ∧ (∀ f : Nat → Except GErr FetchSuccess,
      (∀ p ∈ pageSizes, ∃ e, f p = Except.error e ∧ isIgnorableErr e = true) →
      execute f = (ExecOutcome.exhausted, pageSizes))
    ∧ (∀ (f : Nat → Except GErr FetchSuccess) (pre : List Nat) (p : Nat)
        (rest : List Nat) (e : GErr),
      pageSizes = pre ++ p :: rest →
      (∀ q ∈ pre, ∃ e', f q = Except.error e' ∧ isIgnorableErr e' = true) →
      f p = Except.error e → isIgnorableErr e = false →
      execute f = (ExecOutcome.fetchErr e, pre ++ [p])) := by
  refine ⟨?_, ?_, ?_⟩
  · intro f e20 e10 r5 h20 hi20 h10 hi10 h5
    have hpre : ∀ q ∈ [20, 10], ∃ e, f q = Except.error e ∧ isIgnorableErr e = true := by
      intro q hq
      rcases List.mem_cons.mp hq with rfl | hq
      · exact ⟨e20, h20, hi20⟩
      · rcases List.mem_cons.mp hq with rfl | hq
        · exact ⟨e10, h10, hi10⟩
        · simp at hq
    exact executeAux_prefix_then_ok f [20, 10] 5 [1] r5 hpre h5
  · intro f hall
    exact executeAux_all_ignorable f pageSizes hall
  · intro f pre p rest e hsplit hpre hp hbad
    unfold execute
    rw [hsplit]
    exact executeAux_prefix_then_fatal f pre p rest e hpre hp hbad

/-- C2 witness: a fetcher failing with MAX_NODE_LIMIT_EXCEEDED at sizes 20
and 10 and succeeding at 5. -/
theorem C2_page_size_fallback_witness :
    execute (fun p => if p = 5 then Except.ok ⟨[⟨"c5"⟩], false⟩
        else Except.error ⟨none, false, false, some ["MAX_NODE_LIMIT_EXCEEDED"]⟩)
      = (ExecOutcome.ok ⟨[⟨"c5"⟩], false⟩, [20, 10, 5]) := by
  exact C2_page_size_fallback.1
    (fun p => if p = 5 then Except.ok ⟨[⟨"c5"⟩], false⟩
      else Except.error ⟨none, false, false, some ["MAX_NODE_LIMIT_EXCEEDED"]⟩)
    ⟨none, false, false, some ["MAX_NODE_LIMIT_EXCEEDED"]⟩
    ⟨none, false, false, some ["MAX_NODE_LIMIT_EXCEEDED"]⟩
    ⟨[⟨"c5"⟩], false⟩ rfl (by decide) rfl (by decide) rfl

theorem handleTaskError_not_found_spec (store : Store) (job : Job) (sub : Subscription)
    (e : GErr) (task : TaskType) (rid : Nat) (limiter : Option Int) (now : Int)
    (mf : Bool) {subIn : Subscription}
    (hin : store job.data.installationId = some subIn)
    (hnf : isNotFoundErr e = true)
    (hrl : rateLimitDelay now e.rateLimitReset = none)
    (hto : e.strIncludesTimeout = false)
    (hab : e.messageIncludesAbuse = false) :
    (handleTaskError store job sub e task rid limiter now mf).thrown = none
    ∧ ∃ subf d,
      (handleTaskError store job sub e task rid limiter now mf).store
          job.data.installationId = some subf
      ∧ lookupRepo subf.repoSyncState.repos rid = some d
      ∧ getStatus d task = some TaskStatus.complete
      ∧ (subf.syncStatus = subIn.syncStatus
          ∨ subf.syncStatus = some SyncStatus.COMPLETE) := by
  obtain ⟨subf, hst, _, hlook, hsync, _⟩ :=
    updateJobStatus_nil_spec store job task rid limiter now mf hin
  unfold handleTaskError
  rw [hrl]
  simp only [hto, hab, hnf, Bool.false_eq_true, if_false, if_true]
  exact ⟨trivial, subf, _, hst, hlook, getStatus_setStatus_self _ _ _, hsync⟩

/-- C8 (amended): a task-execution error carrying a NOT_FOUND entry that is
not captured by an earlier classifier branch (no truthy rate-limit delay,
no timeout string, no abuse message) makes the engine run the
progress-update path with empty edges: the selected task's status for
that repository is persisted as complete, nothing is re-raised, and the
installation is never marked FAILED. -/
theorem C8_not_found_completes_task (store : Store) (job : Job)
    (fetcher : Nat → Except GErr FetchSuccess) (jiraSubmit : Except GErr Unit)
    (repoLookup : Nat → RepositorySummary) (limiter : Option Int) (now : Int)
    (mf : Bool) (sub0 : Subscription) (nt : NextTask) (e : GErr) (tried : List Nat)
    (h : store job.data.installationId = some sub0)
    (hnt : (getNextTask store job.data.installationId sub0).2.2 = some nt)
    (hexec : execute fetcher = (ExecOutcome.fetchErr e, tried))
    (hnf : isNotFoundErr e = true)
    (hrl : rateLimitDelay now e.rateLimitReset = none)
    (hto : e.strIncludesTimeout = false)
    (hab : e.messageIncludesAbuse = false) :
    (processInstallation store job fetcher jiraSubmit repoLookup limiter now mf).thrown
        = none
    ∧ ∃ subf d,
      (processInstallation store job fetcher jiraSubmit repoLookup limiter now mf).store
          job.data.installationId = some subf
      ∧ lookupRepo subf.repoSyncState.repos nt.repositoryId = some d
      ∧ getStatus d nt.task = some TaskStatus.complete
      ∧ subf.syncStatus ≠ some SyncStatus.FAILED := by
  unfold processInstallation
  rw [h]
  simp only [hnt, hexec]
  cases hrep : nt.repository with
  | some r =>
    simp only [hrep]
    obtain ⟨hthrown, subf, d, hst, hlook, hstat, hsync⟩ :=
      handleTaskError_not_found_spec
        (saveSub (getNextTask store job.data.installationId sub0).1
          job.data.installationId
          (setSyncStatus (getNextTask store job.data.installationId sub0).2.1
            SyncStatus.ACTIVE))
        job
        (setSyncStatus (getNextTask store job.data.installationId sub0).2.1
          SyncStatus.ACTIVE)
        e nt.task nt.repositoryId limiter now mf (saveSub_self _ _ _) hnf hrl hto hab
    refine ⟨hthrown, subf, d, hst, hlook, hstat, ?_⟩
    intro hfe
    rcases hsync with hs | hs <;> rw [hs] at hfe <;>
      simp [setSyncStatus, setRepoSummary] at hfe
  | none =>
    simp only [hrep]
    obtain ⟨hthrown, subf, d, hst, hlook, hstat, hsync⟩ :=
      handleTaskError_not_found_spec
        (saveSub
          (saveSub (getNextTask store job.data.installationId sub0).1
            job.data.installationId
            (setSyncStatus (getNextTask store job.data.installationId sub0).2.1
              SyncStatus.ACTIVE))
          job.data.installationId
          (setRepoSummary
            (setSyncStatus (getNextTask store job.data.installationId sub0).2.1
              SyncStatus.ACTIVE)
            (repoLookup nt.repositoryId).id (repoLookup nt.repositoryId)))
        job
        (setRepoSummary
          (setSyncStatus (getNextTask store job.data.installationId sub0).2.1
            SyncStatus.ACTIVE)
          (repoLookup nt.repositoryId).id (repoLookup nt.repositoryId))
        e nt.task nt.repositoryId limiter now mf (saveSub_self _ _ _) hnf hrl hto hab
    refine ⟨hthrown, subf, d, hst, hlook, hstat, ?_⟩
    intro hfe
    rcases hsync with hs | hs <;> rw [hs] at hfe <;>
      simp [setSyncStatus, setRepoSummary] at hfe

/-- C8 witness: a plain NOT_FOUND failure on the commit task of repo 1
completes that task without re-raising. -/
theorem C8_not_found_completes_task_witness :
    (processInstallation commitStore demoJob
        (fun _ => Except.error ⟨none, false, false, some ["NOT_FOUND"]⟩) (Except.ok ())
        demoLookup none 0 false).thrown = none
    ∧ ∃ subf d,
      (processInstallation commitStore demoJob
          (fun _ => Except.error ⟨none, false, false, some ["NOT_FOUND"]⟩) (Except.ok ())
          demoLookup none 0 false).store 7 = some subf
      ∧ lookupRepo subf.repoSyncState.repos 1 = some d
      ∧ getStatus d TaskType.commit = some TaskStatus.complete
      ∧ subf.syncStatus ≠ some SyncStatus.FAILED := by
  exact C8_not_found_completes_task commitStore demoJob
    (fun _ => Except.error ⟨none, false, false, some ["NOT_FOUND"]⟩) (Except.ok ())
    demoLookup none 0 false commitSub ⟨TaskType.commit, 1, some ⟨1, 10⟩, none⟩
    ⟨none, false, false, some ["NOT_FOUND"]⟩ [20]
    (by decide) (by decide) (by decide) rfl rfl rfl rfl

/-- C8 counterexample: an error whose errors list contains NOT_FOUND but
whose text also matches the ETIMEDOUT check is captured by the earlier
timeout branch: the engine re-enqueues with delay 5000 and the commit
task stays pending, contradicting the claim that every NOT_FOUND-typed
error completes the task. -/
theorem C8_counterexample :
    (processInstallation commitStore demoJob
        (fun _ => Except.error ⟨none, true, false, some ["NOT_FOUND"]⟩) (Except.ok ())
        demoLookup none 0 false).enqueues
      = [(demoJob.data,
          { delay := some 5000, removeOnComplete := some true, removeOnFail := some false })]
    ∧ (((processInstallation commitStore demoJob
          (fun _ => Except.error ⟨none, true, false, some ["NOT_FOUND"]⟩) (Except.ok ())
          demoLookup none 0 false).store 7).bind
        (fun s => lookupRepo s.repoSyncState.repos 1)).map (fun d => d.commitStatus)
      = some (some TaskStatus.pending)
    ∧ (processInstallation commitStore demoJob
        (fun _ => Except.error ⟨none, true, false, some ["NOT_FOUND"]⟩) (Except.ok ())
        demoLookup none 0 false).thrown = none := by
  decide

/-- C1: the claim matches the spec, but the code computes
`delay = max(now - reset*1000, 0)` instead of `max(reset*1000 - now, 0)`.
At now = 1000 ms with reset = 2 s (future reset: 2000 > 1000) the claim
requires a re-enqueue with delay 1000; the code computes delay 0, falls
through, marks the installation FAILED and re-raises.  At now = 5000 ms
with reset = 1 s (past reset: 1000 <= 5000) the claim requires no
delay-based re-enqueue; the code re-enqueues with delay 4000. -/
theorem C1_rate_limit_delay_reversed :
    ((processInstallation demoStore demoJob
        (fun _ => Except.error ⟨some 2, false, false, none⟩) (Except.ok ()) demoLookup
        none 1000 false).enqueues = []
      ∧ (processInstallation demoStore demoJob
          (fun _ => Except.error ⟨some 2, false, false, none⟩) (Except.ok ()) demoLookup
          none 1000 false).thrown = some ⟨some 2, false, false, none⟩
      ∧ ((processInstallation demoStore demoJob
          (fun _ => Except.error ⟨some 2, false, false, none⟩) (Except.ok ()) demoLookup
          none 1000 false).store 7).map Subscription.syncStatus
        = some (some SyncStatus.FAILED))
    ∧ ((processInstallation demoStore demoJob
          (fun _ => Except.error ⟨some 1, false, false, none⟩) (Except.ok ()) demoLookup
          none 5000 false).enqueues
        = [(demoJob.data,
            { delay := some 4000, removeOnComplete := some true, removeOnFail := some false })]
      ∧ (processInstallation demoStore demoJob
          (fun _ => Except.error ⟨some 1, false, false, none⟩) (Except.ok ()) demoLookup
          none 5000 false).thrown = none) := by
  decide

/-- C7: the claim lists "future rate-limit reset" among the recoverable
classifications after which the job resolves normally; because the code's
delay subtraction is reversed, an error whose only signal is a future
reset (reset = 10 s at now = 500 ms) is treated as unclassified: the
installation is marked FAILED in the store and the error is re-raised
with no re-enqueue. -/
theorem C7_future_rate_limit_marks_failed :
    (processInstallation demoStore demoJob
        (fun _ => Except.error ⟨some 10, false, false, none⟩) (Except.ok ()) demoLookup
        none 500 false).thrown = some ⟨some 10, false, false, none⟩
    ∧ ((processInstallation demoStore demoJob
        (fun _ => Except.error ⟨some 10, false, false, none⟩) (Except.ok ()) demoLookup
        none 500 false).store 7).map Subscription.syncStatus = some (some SyncStatus.FAILED)
    ∧ (processInstallation demoStore demoJob
        (fun _ => Except.error ⟨some 10, false, false, none⟩) (Except.ok ()) demoLookup
        none 500 false).enqueues = [] := by
  decide

end SyncEngine
